import Mathlib

/-!
Shallow embedding of `src/predictedtrack.py` (GPSX).

The program is a dead-reckoning trajectory predictor: it reads a CSV with
`groundspeed`/`heading` columns (pandas), folds over the rows advancing a
current position with geopy's geodesic destination computation, and exports
the resulting point list to CSV and KML.

Modelling choices:
* Python floats are modelled as exact rationals, with NaN made explicit
  (`PVal`), since pandas turns NA strings such as "N/A" into NaN and NaN
  propagates through the arithmetic of the propagation step.
* geopy's `distance(kilometers=k).destination((lat, lon), bearing)` is a
  third-party numeric routine; it is a parameter `dest` of the embedding.
  Theorems that need a property of it (e.g. that a zero-distance destination
  is the start point) take that property as a hypothesis, and witnesses
  instantiate `dest` with the concrete model `destModel` below.
* pandas `read_csv` cell semantics: a cell of a column whose cells are all
  numeric-or-NA becomes a float (NA strings become NaN); otherwise the
  column is object dtype and non-NA cells stay Python strings.  Multiplying
  a string by a float (the knots→m/s conversion) raises a `TypeError`;
  passing a string bearing to geopy raises a `TypeError` inside
  `math.radians`.  Both are modelled by `PredictError.typeError`.
-/

/-- A value held in a pandas float cell: a finite float (modelled as an exact
rational) or NaN. -/
inductive PVal where
  | num (q : ℚ)
  | nan
deriving DecidableEq, Repr

/-- A DataFrame cell after `pd.read_csv` type inference: numeric, NaN (from
one of pandas' default NA strings), or a leftover Python string. -/
inductive CellValue where
  | num (q : ℚ)
  | nan
  | str (s : String)
deriving DecidableEq, Repr

/-- Is the cell a leftover Python string (object dtype)? -/
def CellValue.isStr : CellValue → Bool
  | .str _ => true
  | _ => false

/-- IEEE-style multiplication on float values: NaN absorbs. -/
def PVal.mul : PVal → PVal → PVal
  | .num a, .num b => .num (a * b)
  | _, _ => .nan

/-- IEEE-style division on float values: NaN absorbs (the program only
divides by the constant 1000, so division-by-zero is not reachable). -/
def PVal.div : PVal → PVal → PVal
  | .num a, .num b => .num (a / b)
  | _, _ => .nan

/-- Embedding of `calculate_new_coordinates` (src/predictedtrack.py:21-35).
`dest` stands for geopy's `distance(kilometers=km).destination((lat, lon),
bearing)`, taking latitude, longitude, kilometers, bearing and returning the
new (latitude, longitude). -/
def calculate_new_coordinates (dest : PVal → PVal → PVal → PVal → PVal × PVal)
    (initial_lat initial_lon bearing ground_speed_knots time_interval_seconds : PVal) :
    PVal × PVal :=
  let ground_speed_meters_per_second := ground_speed_knots.mul (.num 0.514444)
  let horizontal_distance_traveled := ground_speed_meters_per_second.mul time_interval_seconds
  let horizontal_distance_traveled_km := horizontal_distance_traveled.div (.num 1000)
  dest initial_lat initial_lon horizontal_distance_traveled_km bearing

/-- The decimal value of a digit character. -/
def digitVal (c : Char) : Option ℕ :=
  if c.isDigit then some (c.toNat - 48) else none

/-- Read a digit sequence as a natural number (accumulator form); `none` on a
non-digit. An empty sequence yields the accumulator. -/
def parseNatCore : List Char → ℕ → Option ℕ
  | [], acc => some acc
  | c :: cs, acc =>
    match digitVal c with
    | some d => parseNatCore cs (acc * 10 + d)
    | none => none

/-- Read an optionally signed decimal literal ("120", "-3.5", ".5", "90.") as
an exact rational, the way pandas parses a numeric CSV cell (exponents are not
needed by any claim and are not modelled). -/
def parseDecimal (s : String) : Option ℚ :=
  let (neg, body) :=
    match s.toList with
    | '-' :: rest => (true, rest)
    | '+' :: rest => (false, rest)
    | l => (false, l)
  let intPart := body.takeWhile (· ≠ '.')
  let magnitude : Option ℚ :=
    match body.dropWhile (· ≠ '.') with
    | [] =>
      if intPart.isEmpty then none
      else (parseNatCore intPart 0).map (fun n => (n : ℚ))
    | _ :: frac =>
      if frac.any (· = '.') then none
      else if intPart.isEmpty && frac.isEmpty then none
      else do
        let ip ← parseNatCore intPart 0
        let fp ← parseNatCore frac 0
        some ((ip : ℚ) + (fp : ℚ) / (10 ^ frac.length))
  magnitude.map (fun v => if neg then -v else v)

/-- pandas' default NA strings (`pandas.io.parsers` STR_NA_VALUES): cells equal
to one of these become NaN. -/
def naValues : List String :=
  ["", "#N/A", "#N/A N/A", "#NA", "-1.#IND", "-1.#QNAN", "-NaN", "-nan",
   "1.#IND", "1.#QNAN", "<NA>", "N/A", "NA", "NULL", "NaN", "None",
   "n/a", "nan", "null"]

/-- One cell of a numeric (float-dtype) column: NA strings become NaN, the
rest parse as numbers. -/
def parseCellNumeric (s : String) : CellValue :=
  if s ∈ naValues then .nan
  else
    match parseDecimal s with
    | some q => .num q
    | none => .str s

/-- pandas column type inference for `read_csv`: if every cell is NA or
numeric the column is float (NA → NaN); otherwise it is object dtype and
non-NA cells remain strings. -/
def inferColumn (cells : List String) : List CellValue :=
  if cells.all (fun s => decide (s ∈ naValues) || (parseDecimal s).isSome) then
    cells.map parseCellNumeric
  else
    cells.map (fun s => if s ∈ naValues then .nan else .str s)

/-- Case normalization of a column name, modelling pandas'
`df.columns.str.lower()` (ASCII lowercase via `Char.toLower`); defined
structurally over the character list so that it evaluates by kernel
reduction. -/
def strLower (s : String) : String :=
  ⟨s.data.map Char.toLower⟩

/-- A tabular input: the header row and the data rows, as raw strings. -/
structure Csv where
  header : List String
  rows : List (List String)
deriving DecidableEq, Repr

/-- The cell values of the column named `name` in a frame whose (already
case-normalized) header is `header`: pandas pads missing trailing cells with
NaN, modelled by defaulting to the empty string (an NA string). -/
def getColumn (header : List String) (rows : List (List String)) (name : String) :
    List CellValue :=
  match header.findIdx? (· = name) with
  | some i => inferColumn (rows.map (fun r => r.getD i ""))
  | none => []

/-- One element of `predicted_data`: the dict
`{'latitude': .., 'longitude': .., 'name': ..}` built by
`read_csv_and_predict`. -/
structure TrackPoint where
  latitude : PVal
  longitude : PVal
  name : ℕ
deriving DecidableEq, Repr

/-- The failures the pipeline can raise: the `ValueError("Missing required
columns: ...")` of the column check, and the Python `TypeError` raised when a
string cell reaches the arithmetic of the propagation step. -/
inductive PredictError where
  | missingColumns (cols : List String)
  | typeError
deriving DecidableEq, Repr

/-- The human-readable message of the missing-columns `ValueError`
(src/predictedtrack.py:46). -/
def PredictError.message : PredictError → String
  | .missingColumns cols => "Missing required columns: " ++ String.intercalate ", " cols
  | .typeError => "TypeError"

/-- Reading `row['groundspeed']` / `row['heading']` out of a cell for the
arithmetic of the step: a string cell raises a `TypeError`. -/
def cellToPVal : CellValue → Except PredictError PVal
  | .num q => .ok (.num q)
  | .nan => .ok .nan
  | .str _ => .error .typeError

/-- The `for index, row in df.iterrows()` loop of `read_csv_and_predict`
(src/predictedtrack.py:62-78): fold over the zipped groundspeed/heading
cells carrying the current position, appending one point per row with
`name = index + 1`, and also return the final position. -/
def predictRows (dest : PVal → PVal → PVal → PVal → PVal × PVal)
    (time_interval_seconds : ℚ) (current_lat current_lon : PVal) (index : ℕ) :
    List (CellValue × CellValue) → Except PredictError (List TrackPoint × PVal × PVal)
  | [] => .ok ([], current_lat, current_lon)
  | (gs, hd) :: rest =>
    match cellToPVal gs with
    | .error e => .error e
    | .ok ground_speed_knots =>
      match cellToPVal hd with
      | .error e => .error e
      | .ok bearing =>
        let p := calculate_new_coordinates dest current_lat current_lon bearing
          ground_speed_knots (.num time_interval_seconds)
        match predictRows dest time_interval_seconds p.1 p.2 (index + 1) rest with
        | .error e => .error e
        | .ok (pts, final_lat, final_lon) =>
          .ok (⟨p.1, p.2, index + 1⟩ :: pts, final_lat, final_lon)

/-- The required logical columns (src/predictedtrack.py:42). -/
def required_columns : List String := ["groundspeed", "heading"]

/-- Embedding of `read_csv_and_predict` (src/predictedtrack.py:38-80):
lower-case the header, fail listing every missing required column, otherwise
start from the caller's initial position (step 1) and propagate one point per
row; returns the point list and the final coordinates. -/
def read_csv_and_predict (dest : PVal → PVal → PVal → PVal → PVal × PVal)
    (input_csv : Csv) (initial_lat initial_lon : ℚ) (time_interval_seconds : ℚ) :
    Except PredictError (List TrackPoint × PVal × PVal) :=
  let header := input_csv.header.map strLower
  let missing_columns := required_columns.filter (fun col => ¬ col ∈ header)
  if missing_columns ≠ [] then
    .error (.missingColumns missing_columns)
  else
    let gsCol := getColumn header input_csv.rows "groundspeed"
    let hdCol := getColumn header input_csv.rows "heading"
    let first : TrackPoint := ⟨.num initial_lat, .num initial_lon, 1⟩
    match predictRows dest time_interval_seconds (.num initial_lat) (.num initial_lon) 0
        (gsCol.zip hdCol) with
    | .error e => .error e
    | .ok (pts, final_lat, final_lon) => .ok (first :: pts, final_lat, final_lon)

/-- One KML placemark as produced by `kml.newpoint(name=..., coords=[...])`:
its name and its (longitude, latitude) coordinate list. -/
structure Placemark where
  name : String
  coords : List (PVal × PVal)
deriving DecidableEq, Repr

/-- Embedding of `write_to_kml` (src/predictedtrack.py:88-92): one placemark
per point, named "Step {name}", coordinates in (longitude, latitude) order. -/
def write_to_kml (predicted_data : List TrackPoint) : List Placemark :=
  predicted_data.map (fun d => ⟨"Step " ++ toString d.name, [(d.longitude, d.latitude)]⟩)

/-- Embedding of `write_to_csv` (src/predictedtrack.py:83-85): one row per
point with columns latitude, longitude, name, in list order. -/
def write_to_csv (predicted_data : List TrackPoint) : List (PVal × PVal × ℕ) :=
  predicted_data.map (fun d => (d.latitude, d.longitude, d.name))

/-- A concrete executable stand-in for geopy's geodesic destination (a
third-party numeric routine, not part of this repository), used only to
instantiate the `dest` parameter in witnesses and counterexamples.  It shares
the properties the theorems rely on: a zero-distance destination is the start
point, and a NaN in any numeric input yields NaN coordinates (IEEE
propagation inside the library). -/
def destModel : PVal → PVal → PVal → PVal → PVal × PVal
  | .num lat, .num lon, .num km, .num b =>
    (.num (lat + km * b / 100000), .num (lon + km / 100))
  | _, _, _, _ => (.nan, .nan)

/-- Decidable equality of pipeline results, so that concrete runs can be
checked by `decide`. -/
instance {ε α : Type} [DecidableEq ε] [DecidableEq α] : DecidableEq (Except ε α)
  | .error e, .error f =>
    if h : e = f then .isTrue (by rw [h]) else .isFalse (by simp [h])
  | .error _, .ok _ => .isFalse (by simp)
  | .ok _, .error _ => .isFalse (by simp)
  | .ok a, .ok b =>
    if h : a = b then .isTrue (by rw [h]) else .isFalse (by simp [h])

/-! ## Helper lemmas -/

theorem inferColumn_length (cells : List String) :
    (inferColumn cells).length = cells.length := by
  unfold inferColumn
  split <;> simp

theorem getColumn_length_of_mem {header : List String} (rows : List (List String))
    {name : String} (h : name ∈ header) :
    (getColumn header rows name).length = rows.length := by
  unfold getColumn
  cases hf : header.findIdx? (· = name) with
  | none =>
    rw [List.findIdx?_eq_none_iff] at hf
    have := hf name h
    simp at this
  | some i =>
    simp [inferColumn_length]

theorem cellToPVal_ok_of_nonstr {c : CellValue} (h : c.isStr = false) :
    ∃ v, cellToPVal c = Except.ok v := by
  cases c <;> simp_all [CellValue.isStr, cellToPVal]

/-- Shape of a successful `read_csv_and_predict`: the initial point is
prepended to whatever `predictRows` produced on the zipped columns. -/
theorem read_csv_and_predict_ok {dest : PVal → PVal → PVal → PVal → PVal × PVal}
    {input_csv : Csv} {initial_lat initial_lon t : ℚ}
    {pts : List TrackPoint} {a b : PVal}
    (h : read_csv_and_predict dest input_csv initial_lat initial_lon t =
      .ok (pts, a, b)) :
    ∃ pts',
      predictRows dest t (.num initial_lat) (.num initial_lon) 0
        ((getColumn (input_csv.header.map strLower) input_csv.rows "groundspeed").zip
          (getColumn (input_csv.header.map strLower) input_csv.rows "heading")) =
        .ok (pts', a, b) ∧
      pts = ⟨.num initial_lat, .num initial_lon, 1⟩ :: pts' := by
  unfold read_csv_and_predict at h
  simp only [] at h
  split at h
  · exact absurd h (by simp)
  · split at h
    · exact absurd h (by simp)
    · rename_i pr pts' flat flon heq
      simp only [Except.ok.injEq, Prod.mk.injEq] at h
      obtain ⟨h1, h2, h3⟩ := h
      exact ⟨pts', by rw [heq, h2, h3], h1.symm⟩

/-! ## Claim theorems -/

/-- C5: a single propagation step converts knots to m/s with the exact
constant 0.514444 (which is not the exact factor 1852/3600), multiplies by
the time interval, divides by 1000 for kilometers, and hands that distance
with the unmodified heading to the geodesic destination computation from
(lat, lon). -/
theorem C5_step_unit_conversion
    (dest : PVal → PVal → PVal → PVal → PVal × PVal) (lat lon b s t : ℚ) :
    calculate_new_coordinates dest (.num lat) (.num lon) (.num b) (.num s) (.num t) =
      dest (.num lat) (.num lon) (.num (s * 0.514444 * t / 1000)) (.num b) ∧
    (0.514444 : ℚ) ≠ 1852 / 3600 :=
  ⟨rfl, by norm_num⟩

/-- C9: whenever `read_csv_and_predict` succeeds, the first element of the
returned point list is exactly the caller-supplied initial position, with
step 1: no conversion or rounding is applied to it. -/
theorem C9_first_point_identity
    (dest : PVal → PVal → PVal → PVal → PVal × PVal) (input_csv : Csv)
    (initial_lat initial_lon t : ℚ) (pts : List TrackPoint) (a b : PVal)
    (h : read_csv_and_predict dest input_csv initial_lat initial_lon t = .ok (pts, a, b)) :
    pts.head? = some ⟨.num initial_lat, .num initial_lon, 1⟩ := by
  obtain ⟨pts', -, rfl⟩ := read_csv_and_predict_ok h
  rfl

/-- C9 witness: at the concrete empty input with initial position (3, 4) the
trajectory starts (and ends) with exactly that position. -/
theorem C9_first_point_identity_witness :
    ([⟨.num 3, .num 4, 1⟩] : List TrackPoint).head? = some ⟨.num 3, .num 4, 1⟩ :=
  C9_first_point_identity destModel ⟨["groundspeed", "heading"], []⟩ 3 4 1
    [⟨.num 3, .num 4, 1⟩] (.num 3) (.num 4) (by rfl)

/-- C7: the KML exporter emits exactly one placemark per track point, in
order, named "Step {step}", with the coordinate pair in (longitude, latitude)
order — the reverse of the table exporter's (latitude, longitude) order at
the same index. -/
theorem C7_kml_placemarks (predicted_data : List TrackPoint) (i : ℕ)
    (h : i < predicted_data.length) :
    (write_to_kml predicted_data).length = predicted_data.length ∧
    (write_to_kml predicted_data)[i]? =
      some ⟨"Step " ++ toString predicted_data[i].name,
        [(predicted_data[i].longitude, predicted_data[i].latitude)]⟩ ∧
    (write_to_csv predicted_data)[i]? =
      some (predicted_data[i].latitude, predicted_data[i].longitude,
        predicted_data[i].name) := by
  refine ⟨by simp [write_to_kml], ?_, ?_⟩
  · simp [write_to_kml, List.getElem?_eq_getElem, h]
  · simp [write_to_csv, List.getElem?_eq_getElem, h]

/-- C7 witness: on a concrete two-point trajectory, the second placemark is
named from step 7 and swaps the coordinate order of the table row. -/
theorem C7_kml_placemarks_witness :
    (write_to_kml [⟨.num 1, .num 2, 1⟩, ⟨.num 3, .num 4, 7⟩]).length = 2 ∧
    (write_to_kml [⟨.num 1, .num 2, 1⟩, ⟨.num 3, .num 4, 7⟩])[1]? =
      some ⟨"Step " ++ toString (7 : ℕ), [(.num 4, .num 3)]⟩ ∧
    (write_to_csv [⟨.num 1, .num 2, 1⟩, ⟨.num 3, .num 4, 7⟩])[1]? =
      some (.num 3, .num 4, 7) := by
  have h := C7_kml_placemarks [⟨.num 1, .num 2, 1⟩, ⟨.num 3, .num 4, 7⟩] 1 (by decide)
  simpa using h

/-- C3: when one or more required columns are absent after case
normalization, the loader fails with the missing-columns error listing every
absent required column (characterized by the filter membership), and it does
so independently of the geodesic routine and of the data rows — i.e. before
any propagation step. -/
theorem C3_missing_columns_error
    (dest : PVal → PVal → PVal → PVal → PVal × PVal) (input_csv : Csv)
    (initial_lat initial_lon t : ℚ)
    (h : ∃ c ∈ required_columns, c ∉ input_csv.header.map strLower) :
    (read_csv_and_predict dest input_csv initial_lat initial_lon t =
      .error (.missingColumns
        (required_columns.filter (fun col => ¬ col ∈ input_csv.header.map strLower)))) ∧
    (∀ c, c ∈ required_columns.filter (fun col => ¬ col ∈ input_csv.header.map strLower) ↔
      c ∈ required_columns ∧ c ∉ input_csv.header.map strLower) ∧
    (∀ (dest2 : PVal → PVal → PVal → PVal → PVal × PVal) (rows2 : List (List String)),
      read_csv_and_predict dest2 ⟨input_csv.header, rows2⟩ initial_lat initial_lon t =
        .error (.missingColumns
          (required_columns.filter (fun col => ¬ col ∈ input_csv.header.map strLower)))) := by
  obtain ⟨c, hc, hnc⟩ := h
  have hmem : c ∈ required_columns.filter
      (fun col => ¬ col ∈ input_csv.header.map strLower) :=
    List.mem_filter.mpr ⟨hc, by simpa using hnc⟩
  have hne : required_columns.filter
      (fun col => ¬ col ∈ input_csv.header.map strLower) ≠ [] :=
    List.ne_nil_of_mem hmem
  refine ⟨?_, ?_, ?_⟩
  · unfold read_csv_and_predict
    simp only []
    rw [if_pos hne]
  · intro d
    rw [List.mem_filter]
    simp
  · intro dest2 rows2
    unfold read_csv_and_predict
    simp only []
    rw [if_pos hne]

/-- C3 witness: a source whose header has neither required column fails with
the error naming both `groundspeed` and `heading`, not just the first. -/
theorem C3_missing_columns_error_witness :
    read_csv_and_predict destModel ⟨["speed", "time"], [["1", "2"]]⟩ 0 0 1 =
      .error (.missingColumns ["groundspeed", "heading"]) := by
  have h := (C3_missing_columns_error destModel ⟨["speed", "time"], [["1", "2"]]⟩ 0 0 1
    (by decide)).1
  exact h.trans (by decide)

/-- C8: two tabular inputs that agree up to the letter case of their column
names (same rows) are treated identically by the pipeline: same acceptance,
same trajectory, same final position. -/
theorem C8_case_insensitive_columns
    (dest : PVal → PVal → PVal → PVal → PVal × PVal) (csv1 csv2 : Csv)
    (initial_lat initial_lon t : ℚ)
    (hh : csv1.header.map strLower = csv2.header.map strLower)
    (hr : csv1.rows = csv2.rows) :
    read_csv_and_predict dest csv1 initial_lat initial_lon t =
      read_csv_and_predict dest csv2 initial_lat initial_lon t := by
  unfold read_csv_and_predict
  rw [hh, hr]

/-- C8 witness: `GroundSpeed`/`HEADING` is accepted and produces exactly the
result of the all-lowercase header on the same data. -/
theorem C8_case_insensitive_columns_witness :
    read_csv_and_predict destModel ⟨["GroundSpeed", "HEADING"], [["120", "90"]]⟩ 0 0 1 =
      read_csv_and_predict destModel ⟨["groundspeed", "heading"], [["120", "90"]]⟩ 0 0 1 ∧
    (read_csv_and_predict destModel ⟨["GroundSpeed", "HEADING"], [["120", "90"]]⟩ 0 0 1).toOption ≠
      none :=
  ⟨C8_case_insensitive_columns destModel ⟨["GroundSpeed", "HEADING"], [["120", "90"]]⟩
    ⟨["groundspeed", "heading"], [["120", "90"]]⟩ 0 0 1 (by decide) rfl, by decide⟩

/-- When no zipped cell is a string, the propagation loop succeeds, produces
one point per row, and numbers them `index + 1`, `index + 2`, ... -/
theorem predictRows_ok_of_nonstr (dest : PVal → PVal → PVal → PVal → PVal × PVal) (t : ℚ) :
    ∀ (l : List (CellValue × CellValue)) (la lo : PVal) (i : ℕ),
      (∀ p ∈ l, p.1.isStr = false ∧ p.2.isStr = false) →
      ∃ pts a b, predictRows dest t la lo i l = .ok (pts, a, b) ∧
        pts.length = l.length ∧
        pts.map TrackPoint.name = (List.range l.length).map (fun k => i + k + 1) := by
  intro l
  induction l with
  | nil => exact fun la lo i _ => ⟨[], la, lo, rfl, rfl, rfl⟩
  | cons p rest ih =>
    intro la lo i h
    obtain ⟨gs, hd⟩ := p
    obtain ⟨v, hv⟩ := cellToPVal_ok_of_nonstr (h (gs, hd) (List.mem_cons_self _ _)).1
    obtain ⟨w, hw⟩ := cellToPVal_ok_of_nonstr (h (gs, hd) (List.mem_cons_self _ _)).2
    obtain ⟨pts, a, b, hok, hlen, hnames⟩ :=
      ih (calculate_new_coordinates dest la lo w v (.num t)).1
        (calculate_new_coordinates dest la lo w v (.num t)).2 (i + 1)
        (fun x hx => h x (List.mem_cons_of_mem _ hx))
    refine ⟨⟨(calculate_new_coordinates dest la lo w v (.num t)).1,
      (calculate_new_coordinates dest la lo w v (.num t)).2, i + 1⟩ :: pts, a, b, ?_,
      by simp [hlen], ?_⟩
    · simp only [predictRows, hv, hw, hok]
    · have hfun : ((fun k => i + k + 1) ∘ Nat.succ) = fun k => i + 1 + k + 1 := by
        funext k
        simp only [Function.comp_apply, Nat.succ_eq_add_one]
        omega
      rw [List.map_cons, hnames, List.length_cons, List.range_succ_eq_map,
        List.map_cons, List.map_map, hfun]

/-- A successful propagation loop returns as "final position" exactly the
coordinates of its last produced point (or the start position when it
produced none). -/
theorem predictRows_ok_last (dest : PVal → PVal → PVal → PVal → PVal × PVal) (t : ℚ) :
    ∀ (l : List (CellValue × CellValue)) (la lo : PVal) (i : ℕ)
      (pts : List TrackPoint) (a b : PVal),
      predictRows dest t la lo i l = .ok (pts, a, b) →
      (pts = [] ∧ a = la ∧ b = lo) ∨
        ∃ lp, pts.getLast? = some lp ∧ lp.latitude = a ∧ lp.longitude = b := by
  intro l
  induction l with
  | nil =>
    intro la lo i pts a b h
    simp only [predictRows, Except.ok.injEq, Prod.mk.injEq] at h
    exact Or.inl ⟨h.1.symm, h.2.1.symm, h.2.2.symm⟩
  | cons p rest ih =>
    intro la lo i pts a b h
    obtain ⟨gs, hd⟩ := p
    simp only [predictRows] at h
    split at h
    · simp at h
    split at h
    · simp at h
    split at h
    · simp at h
    rename_i v hv w hw res pts' fl fl2 heq
    simp only [Except.ok.injEq, Prod.mk.injEq] at h
    obtain ⟨h1, h2, h3⟩ := h
    subst h1 h2 h3
    rcases ih _ _ _ _ _ _ heq with ⟨h4, h5, h6⟩ | ⟨lp, hlast, hla, hlo⟩
    · subst h4 h5 h6
      exact Or.inr ⟨_, rfl, rfl, rfl⟩
    · cases pts' with
      | nil => simp at hlast
      | cons q qs => exact Or.inr ⟨lp, by rw [List.getLast?_cons_cons]; exact hlast, hla, hlo⟩

/-- If every groundspeed cell is the number 0 (and headings are numbers),
and the geodesic returns the start point at distance 0, the loop never moves:
every produced point carries the start coordinates. -/
theorem predictRows_zero_speed (dest : PVal → PVal → PVal → PVal → PVal × PVal)
    (hdest : ∀ (x y b0 : ℚ), dest (.num x) (.num y) (.num 0) (.num b0) = (.num x, .num y))
    (t : ℚ) :
    ∀ (l : List (CellValue × CellValue)) (la lo : ℚ) (i : ℕ)
      (pts : List TrackPoint) (a b : PVal),
      (∀ p ∈ l, p.1 = CellValue.num 0 ∧ ∃ q, p.2 = CellValue.num q) →
      predictRows dest t (.num la) (.num lo) i l = .ok (pts, a, b) →
      pts.map (fun p => (p.latitude, p.longitude)) =
        List.replicate pts.length (PVal.num la, PVal.num lo) := by
  intro l
  induction l with
  | nil =>
    intro la lo i pts a b _ h
    simp only [predictRows, Except.ok.injEq, Prod.mk.injEq] at h
    rw [← h.1]
    rfl
  | cons p rest ih =>
    intro la lo i pts a b hcells h
    obtain ⟨gs, hd⟩ := p
    obtain ⟨hgs, q, hhd⟩ := hcells (gs, hd) (List.mem_cons_self _ _)
    subst hgs hhd
    have h0 : (0 : ℚ) * 0.514444 * t / 1000 = 0 := by simp
    have hcalc : calculate_new_coordinates dest (.num la) (.num lo) (.num q) (.num 0) (.num t)
        = (.num la, .num lo) := by
      show dest (.num la) (.num lo) (.num ((0 : ℚ) * 0.514444 * t / 1000)) (.num q)
          = (.num la, .num lo)
      rw [h0]
      exact hdest la lo q
    simp only [predictRows, cellToPVal, hcalc] at h
    split at h
    · simp at h
    rename_i res pts' fl fl2 heq
    simp only [Except.ok.injEq, Prod.mk.injEq] at h
    obtain ⟨h1, h2, h3⟩ := h
    subst h1 h2 h3
    have := ih la lo (i + 1) pts' fl fl2
      (fun x hx => hcells x (List.mem_cons_of_mem _ hx)) heq
    simp [this, List.replicate_succ]

/-- If some row's groundspeed cell is NaN (and no cell is a string), the loop
still succeeds with one point per row, and the point derived from that row
has NaN coordinates — given that the geodesic propagates NaN inputs. -/
theorem predictRows_na_at (dest : PVal → PVal → PVal → PVal → PVal × PVal)
    (hdest : ∀ (la lo km b : PVal), la = PVal.nan ∨ lo = PVal.nan ∨ km = PVal.nan →
      dest la lo km b = (PVal.nan, PVal.nan)) (t : ℚ) :
    ∀ (l : List (CellValue × CellValue)) (la lo : PVal) (i k : ℕ),
      (∀ p ∈ l, p.1.isStr = false ∧ p.2.isStr = false) →
      l[k]?.map Prod.fst = some CellValue.nan →
      ∃ pts a b, predictRows dest t la lo i l = .ok (pts, a, b) ∧
        pts.length = l.length ∧
        pts[k]?.map (fun p => (p.latitude, p.longitude)) = some (PVal.nan, PVal.nan) := by
  intro l
  induction l with
  | nil =>
    intro la lo i k _ hk
    simp at hk
  | cons p rest ih =>
    intro la lo i k hcells hk
    obtain ⟨gs, hd⟩ := p
    cases k with
    | zero =>
      have hgs : gs = CellValue.nan := by simpa using hk
      subst hgs
      obtain ⟨w, hw⟩ :=
        cellToPVal_ok_of_nonstr (hcells (CellValue.nan, hd) (List.mem_cons_self _ _)).2
      have hcalc : calculate_new_coordinates dest la lo w PVal.nan (.num t)
          = (PVal.nan, PVal.nan) := hdest la lo PVal.nan w (Or.inr (Or.inr rfl))
      obtain ⟨pts', a, b, hok, hlen, -⟩ :=
        predictRows_ok_of_nonstr dest t rest PVal.nan PVal.nan (i + 1)
          (fun x hx => hcells x (List.mem_cons_of_mem _ hx))
      refine ⟨⟨PVal.nan, PVal.nan, i + 1⟩ :: pts', a, b, ?_, by simp [hlen], by simp⟩
      have hnan : cellToPVal CellValue.nan = .ok PVal.nan := rfl
      simp only [predictRows, hnan, hw, hcalc, hok]
    | succ k =>
      have hk' : rest[k]?.map Prod.fst = some CellValue.nan := by simpa using hk
      obtain ⟨v, hv⟩ := cellToPVal_ok_of_nonstr (hcells (gs, hd) (List.mem_cons_self _ _)).1
      obtain ⟨w, hw⟩ := cellToPVal_ok_of_nonstr (hcells (gs, hd) (List.mem_cons_self _ _)).2
      obtain ⟨pts', a, b, hok, hlen, hnan⟩ :=
        ih (calculate_new_coordinates dest la lo w v (.num t)).1
          (calculate_new_coordinates dest la lo w v (.num t)).2 (i + 1) k
          (fun x hx => hcells x (List.mem_cons_of_mem _ hx)) hk'
      refine ⟨⟨(calculate_new_coordinates dest la lo w v (.num t)).1,
        (calculate_new_coordinates dest la lo w v (.num t)).2, i + 1⟩ :: pts', a, b, ?_,
        by simp [hlen], by simpa using hnan⟩
      simp only [predictRows, hv, hw, hok]

/-- C4: for every input whose (case-normalized) header has both required
columns and whose cells are all numeric or NA (no leftover strings), the
pipeline succeeds and the trajectory has exactly one more point than there
are data rows — including zero rows. -/
theorem C4_length_invariant
    (dest : PVal → PVal → PVal → PVal → PVal × PVal) (input_csv : Csv)
    (initial_lat initial_lon t : ℚ)
    (hg : "groundspeed" ∈ input_csv.header.map strLower)
    (hh : "heading" ∈ input_csv.header.map strLower)
    (hcells : ∀ p ∈ (getColumn (input_csv.header.map strLower) input_csv.rows
        "groundspeed").zip
        (getColumn (input_csv.header.map strLower) input_csv.rows "heading"),
        p.1.isStr = false ∧ p.2.isStr = false) :
    (read_csv_and_predict dest input_csv initial_lat initial_lon t).toOption.map
        (fun r => r.1.length) = some (input_csv.rows.length + 1) := by
  have hmiss : required_columns.filter
      (fun col => ¬ col ∈ input_csv.header.map strLower) = [] := by
    simp only [required_columns]
    simp only [List.filter_cons, List.filter_nil]
    rw [if_neg (by simpa using hg), if_neg (by simpa using hh)]
  have hz : ((getColumn (input_csv.header.map strLower) input_csv.rows "groundspeed").zip
      (getColumn (input_csv.header.map strLower) input_csv.rows "heading")).length =
      input_csv.rows.length := by
    rw [List.length_zip, getColumn_length_of_mem _ hg, getColumn_length_of_mem _ hh,
      Nat.min_self]
  obtain ⟨pts, a, b, hok, hlen, -⟩ :=
    predictRows_ok_of_nonstr dest t _ (.num initial_lat) (.num initial_lon) 0 hcells
  unfold read_csv_and_predict
  simp only []
  rw [if_neg (fun hne => hne hmiss), hok]
  simp [Except.toOption, hlen, hz]

/-- C4 witness: two numeric rows give a three-point trajectory. -/
theorem C4_length_invariant_witness :
    (read_csv_and_predict destModel
        ⟨["groundspeed", "heading"], [["120", "90"], ["60", "180"]]⟩ 0 0 1).toOption.map
      (fun r => r.1.length) = some 3 := by
  have h := C4_length_invariant destModel
    ⟨["groundspeed", "heading"], [["120", "90"], ["60", "180"]]⟩ 0 0 1
    (by decide) (by decide) (by decide)
  simpa using h

/-- C1 counterexample: on the single-sample input {groundspeed 120,
heading 90}, the point derived from sample 0 carries step number 1 (the code
computes `index + 1`), not 2 as the claim states — so the output steps are
[1, 1], not [1, 2]. -/
theorem C1_counterexample :
    (read_csv_and_predict destModel ⟨["groundspeed", "heading"], [["120", "90"]]⟩
        0 0 1).toOption.map (fun r => r.1.map TrackPoint.name) = some [1, 1] ∧
    (read_csv_and_predict destModel ⟨["groundspeed", "heading"], [["120", "90"]]⟩
        0 0 1).toOption.map (fun r => r.1.map TrackPoint.name) ≠ some [1, 2] := by
  constructor <;> decide

/-- C1 amended: the first TrackPoint carries step 1, and the TrackPoint
derived from sample i (0-based) carries step i + 1 — so the first derived
point repeats step 1 and the output step sequence is 1, 1, 2, ..., n. -/
theorem C1_step_numbering
    (dest : PVal → PVal → PVal → PVal → PVal × PVal) (input_csv : Csv)
    (initial_lat initial_lon t : ℚ)
    (hg : "groundspeed" ∈ input_csv.header.map strLower)
    (hh : "heading" ∈ input_csv.header.map strLower)
    (hcells : ∀ p ∈ (getColumn (input_csv.header.map strLower) input_csv.rows
        "groundspeed").zip
        (getColumn (input_csv.header.map strLower) input_csv.rows "heading"),
        p.1.isStr = false ∧ p.2.isStr = false) :
    (read_csv_and_predict dest input_csv initial_lat initial_lon t).toOption.map
        (fun r => r.1.map TrackPoint.name) =
      some (1 :: (List.range input_csv.rows.length).map (fun k => k + 1)) := by
  have hmiss : required_columns.filter
      (fun col => ¬ col ∈ input_csv.header.map strLower) = [] := by
    simp only [required_columns]
    simp only [List.filter_cons, List.filter_nil]
    rw [if_neg (by simpa using hg), if_neg (by simpa using hh)]
  have hz : ((getColumn (input_csv.header.map strLower) input_csv.rows "groundspeed").zip
      (getColumn (input_csv.header.map strLower) input_csv.rows "heading")).length =
      input_csv.rows.length := by
    rw [List.length_zip, getColumn_length_of_mem _ hg, getColumn_length_of_mem _ hh,
      Nat.min_self]
  obtain ⟨pts, a, b, hok, -, hnames⟩ :=
    predictRows_ok_of_nonstr dest t _ (.num initial_lat) (.num initial_lon) 0 hcells
  unfold read_csv_and_predict
  simp only []
  rw [if_neg (fun hne => hne hmiss), hok]
  simp [Except.toOption, hnames, hz]

/-- C1 amended witness: two samples yield steps [1, 1, 2]. -/
theorem C1_step_numbering_witness :
    (read_csv_and_predict destModel
        ⟨["groundspeed", "heading"], [["120", "90"], ["60", "180"]]⟩ 5 6 2).toOption.map
      (fun r => r.1.map TrackPoint.name) = some [1, 1, 2] := by
  have h := C1_step_numbering destModel
    ⟨["groundspeed", "heading"], [["120", "90"], ["60", "180"]]⟩ 5 6 2
    (by decide) (by decide) (by decide)
  exact h.trans (by decide)

/-- C10: a successful `read_csv_and_predict` returns, besides the point
list, final coordinates that are exactly the latitude and longitude of the
last point of that list. -/
theorem C10_final_coordinates
    (dest : PVal → PVal → PVal → PVal → PVal × PVal) (input_csv : Csv)
    (initial_lat initial_lon t : ℚ) (pts : List TrackPoint) (a b : PVal)
    (h : read_csv_and_predict dest input_csv initial_lat initial_lon t = .ok (pts, a, b)) :
    pts.getLast?.map TrackPoint.latitude = some a ∧
    pts.getLast?.map TrackPoint.longitude = some b := by
  obtain ⟨pts', hok, rfl⟩ := read_csv_and_predict_ok h
  rcases predictRows_ok_last dest t _ _ _ _ _ _ _ hok with ⟨rfl, rfl, rfl⟩ |
    ⟨lp, hlast, hla, hlo⟩
  · exact ⟨rfl, rfl⟩
  · cases pts' with
    | nil => simp at hlast
    | cons q qs =>
      rw [List.getLast?_cons_cons, hlast]
      exact ⟨by simp [hla], by simp [hlo]⟩

/-- C10 witness: with zero data rows the returned final coordinates are the
initial position, which is also the (only, hence last) point. -/
theorem C10_final_coordinates_witness :
    ([⟨.num 7, .num 8, 1⟩] : List TrackPoint).getLast?.map TrackPoint.latitude =
      some (.num 7) ∧
    ([⟨.num 7, .num 8, 1⟩] : List TrackPoint).getLast?.map TrackPoint.longitude =
      some (.num 8) :=
  C10_final_coordinates destModel ⟨["groundspeed", "heading"], []⟩ 7 8 1
    [⟨.num 7, .num 8, 1⟩] (.num 7) (.num 8) (by rfl)

/-- C6: if every groundspeed cell is 0 (headings arbitrary numbers) and the
geodesic destination at distance 0 is the start point, then every TrackPoint
— in particular every one after the first — carries exactly the initial
position. -/
theorem C6_zero_speed_idempotence
    (dest : PVal → PVal → PVal → PVal → PVal × PVal)
    (hdest : ∀ (x y b0 : ℚ), dest (.num x) (.num y) (.num 0) (.num b0) = (.num x, .num y))
    (input_csv : Csv) (initial_lat initial_lon t : ℚ)
    (pts : List TrackPoint) (a b : PVal)
    (hgs : ∀ c ∈ getColumn (input_csv.header.map strLower) input_csv.rows "groundspeed",
      c = CellValue.num 0)
    (hhd : ∀ c ∈ getColumn (input_csv.header.map strLower) input_csv.rows "heading",
      ∃ q, c = CellValue.num q)
    (h : read_csv_and_predict dest input_csv initial_lat initial_lon t = .ok (pts, a, b)) :
    pts.map (fun p => (p.latitude, p.longitude)) =
      List.replicate pts.length (PVal.num initial_lat, PVal.num initial_lon) := by
  obtain ⟨pts', hok, rfl⟩ := read_csv_and_predict_ok h
  have hcells : ∀ p ∈ (getColumn (input_csv.header.map strLower) input_csv.rows
      "groundspeed").zip
      (getColumn (input_csv.header.map strLower) input_csv.rows "heading"),
      p.1 = CellValue.num 0 ∧ ∃ q, p.2 = CellValue.num q := by
    intro p hp
    obtain ⟨h1, h2⟩ := List.of_mem_zip hp
    exact ⟨hgs _ h1, hhd _ h2⟩
  have hrep := predictRows_zero_speed dest hdest t _ initial_lat initial_lon 0 pts' a b
    hcells hok
  simp [hrep, List.replicate_succ]

/-- C6 witness: two zero-speed samples from (5, 6) leave every point at
(5, 6). -/
theorem C6_zero_speed_idempotence_witness :
    ([⟨.num 5, .num 6, 1⟩, ⟨.num 5, .num 6, 1⟩, ⟨.num 5, .num 6, 2⟩] :
        List TrackPoint).map (fun p => (p.latitude, p.longitude)) =
      List.replicate 3 (PVal.num 5, PVal.num 6) := by
  have h := C6_zero_speed_idempotence (fun la lo _ _ => (la, lo))
    (fun x y b0 => rfl)
    ⟨["groundspeed", "heading"], [["0", "90"], ["0", "180"]]⟩ 5 6 1
    [⟨.num 5, .num 6, 1⟩, ⟨.num 5, .num 6, 1⟩, ⟨.num 5, .num 6, 2⟩] (.num 5) (.num 6)
    (by decide)
    (by
      intro c hc
      have hcol : getColumn ((⟨["groundspeed", "heading"],
          [["0", "90"], ["0", "180"]]⟩ : Csv).header.map strLower)
          (⟨["groundspeed", "heading"], [["0", "90"], ["0", "180"]]⟩ : Csv).rows
          "heading" = [CellValue.num 90, CellValue.num 180] := by decide
      rw [hcol] at hc
      simp only [List.mem_cons, List.not_mem_nil, or_false] at hc
      rcases hc with rfl | rfl
      · exact ⟨90, rfl⟩
      · exact ⟨180, rfl⟩)
    (by decide)
  simp at h
  simp [h]

/-- C2 counterexample: a row with groundspeed "N/A" does not make propagation
fail: pandas reads it as NaN, the run returns a full two-point trajectory
(initial point plus a NaN-coordinate point), and no error of any kind — in
particular no sample error naming the row — is raised. -/
theorem C2_counterexample :
    read_csv_and_predict destModel ⟨["groundspeed", "heading"], [["N/A", "90"]]⟩ 0 0 1 =
      .ok ([⟨.num 0, .num 0, 1⟩, ⟨.nan, .nan, 1⟩], .nan, .nan) := by decide

/-- C2 amended: with both required columns present, no string cells, and a
NaN groundspeed cell at row k (as pandas produces for "N/A"), the pipeline
does not fail: it returns a full-length trajectory whose point derived from
row k has NaN coordinates — provided the geodesic propagates NaN inputs. -/
theorem C2_na_groundspeed
    (dest : PVal → PVal → PVal → PVal → PVal × PVal)
    (hdest : ∀ (la lo km b : PVal), la = PVal.nan ∨ lo = PVal.nan ∨ km = PVal.nan →
      dest la lo km b = (PVal.nan, PVal.nan))
    (input_csv : Csv) (initial_lat initial_lon t : ℚ) (k : ℕ)
    (hg : "groundspeed" ∈ input_csv.header.map strLower)
    (hh : "heading" ∈ input_csv.header.map strLower)
    (hcells : ∀ p ∈ (getColumn (input_csv.header.map strLower) input_csv.rows
        "groundspeed").zip
        (getColumn (input_csv.header.map strLower) input_csv.rows "heading"),
        p.1.isStr = false ∧ p.2.isStr = false)
    (hknan : ((getColumn (input_csv.header.map strLower) input_csv.rows "groundspeed").zip
        (getColumn (input_csv.header.map strLower) input_csv.rows "heading"))[k]?.map
        Prod.fst = some CellValue.nan) :
    (read_csv_and_predict dest input_csv initial_lat initial_lon t).toOption.map
        (fun r => (r.1.length, r.1[k + 1]?.map (fun p => (p.latitude, p.longitude)))) =
      some (input_csv.rows.length + 1, some (PVal.nan, PVal.nan)) := by
  have hmiss : required_columns.filter
      (fun col => ¬ col ∈ input_csv.header.map strLower) = [] := by
    simp only [required_columns]
    simp only [List.filter_cons, List.filter_nil]
    rw [if_neg (by simpa using hg), if_neg (by simpa using hh)]
  have hz : ((getColumn (input_csv.header.map strLower) input_csv.rows "groundspeed").zip
      (getColumn (input_csv.header.map strLower) input_csv.rows "heading")).length =
      input_csv.rows.length := by
    rw [List.length_zip, getColumn_length_of_mem _ hg, getColumn_length_of_mem _ hh,
      Nat.min_self]
  obtain ⟨pts, a, b, hok, hlen, hnan⟩ :=
    predictRows_na_at dest hdest t _ (.num initial_lat) (.num initial_lon) 0 k hcells hknan
  unfold read_csv_and_predict
  simp only []
  rw [if_neg (fun hne => hne hmiss), hok]
  simp [Except.toOption, hlen, hz, hnan]

/-- C2 amended witness: a "N/A" groundspeed in the middle row yields a
four-point trajectory whose third point has NaN coordinates, with no error. -/
theorem C2_na_groundspeed_witness :
    (read_csv_and_predict destModel
        ⟨["groundspeed", "heading"], [["60", "0"], ["N/A", "90"], ["60", "180"]]⟩
        0 0 1).toOption.map
      (fun r => (r.1.length, r.1[2]?.map (fun p => (p.latitude, p.longitude)))) =
      some (4, some (PVal.nan, PVal.nan)) := by
  have h := C2_na_groundspeed destModel
    (by
      intro la lo km b hx
      cases la <;> cases lo <;> cases km <;> cases b <;> simp_all [destModel])
    ⟨["groundspeed", "heading"], [["60", "0"], ["N/A", "90"], ["60", "180"]]⟩ 0 0 1 1
    (by decide) (by decide) (by decide) (by decide)
  exact h.trans (by decide)
